import Mathlib

/-!
Verification of the PyPV-Eval photovoltaic project evaluation engine.

This file gives a shallow embedding, over exact rationals, of the core of
`src/main.py`: the parameter dictionary and its validation
(`PVProject._validate_and_init_params`), the 26-period cash-flow ledger
(`PVProject.calculate_cash_flow`), the summary metrics
(`PVProject.get_metrics`), the single-factor sensitivity sweep
(`sensitivity_analysis`) and the inverse solver (`goal_seek_investment`).

Python floats are idealized as rationals (ℚ); Python exceptions are
modelled with `Except`.  The third-party numeric routines `numpy_financial.irr`
and `scipy.optimize.brentq` are not part of the repository; they are treated
as parameters of the embedding (an `irr` oracle, and a `solve` function
constrained by the documented bracketing contract).
-/

/-- Python exception classes that matter for these proofs: `ValueError`
(raised by `sensitivity_analysis` for an unknown factor and by
`scipy.optimize.brentq` when the bracket has no sign change),
`InputValidationError`, and any other exception. -/
inductive PyErr where
  | valueError
  | validationError
  | otherError
deriving DecidableEq

/-- A Python parameter dictionary restricted to its numeric entries:
an insertion-ordered association list from string keys to rationals. -/
abbrev PDict := List (String × ℚ)

/-- `dict.get(k)`: first (and only, for a dict) binding of `k`. -/
def pget (p : PDict) (k : String) : Option ℚ :=
  match p with
  | [] => none
  | (k0, v) :: rest => if k0 = k then some v else pget rest k

/-- `dict.get(k, d)`. -/
def pgetD (p : PDict) (k : String) (d : ℚ) : ℚ :=
  (pget p k).getD d

/-- `dict[k] = v`: replace the existing binding in place, or append a new one,
preserving insertion order exactly as a Python dict does. -/
def pinsert (p : PDict) (k : String) (v : ℚ) : PDict :=
  match p with
  | [] => [(k, v)]
  | (k0, v0) :: rest => if k0 = k then (k, v) :: rest else (k0, v0) :: pinsert rest k v

/-- The full parameter record: the numeric entries plus the optional `mode`
key (the only string-valued entry the engine reads). -/
structure RawParams where
  entries : PDict
  mode : Option String
deriving DecidableEq

/- Constants of `class Constants` in `src/main.py` (lower-case names). -/

def vat_rate : ℚ := 13/100
def surtax_rate : ℚ := 10/100
def income_tax_rate : ℚ := 25/100
def depreciation_years : ℕ := 20
def residual_ratio : ℚ := 5/100
def depreciation_base_ratio : ℚ := 95/100
def operation_period : ℕ := 25
def working_capital_per_mw : ℚ := 3
def other_cost_ratio : ℚ := 5/1000
def min_invest_const : ℚ := 1000
def max_invest_const : ℚ := 100000

/-- `PVProject._get_om_rate`: the tiered O&M rate table `Constants.OM_RATES`,
with the 21-25 band value as the fall-through default. -/
def om_rate (year_idx : ℕ) : ℚ :=
  if 1 ≤ year_idx ∧ year_idx ≤ 5 then 10
  else if 6 ≤ year_idx ∧ year_idx ≤ 10 then 18
  else if 11 ≤ year_idx ∧ year_idx ≤ 20 then 28
  else if 21 ≤ year_idx ∧ year_idx ≤ 25 then 32
  else 32

/-- Mode-specific validated price parameters. -/
inductive ModeParams where
  | full_grid (price_tax_inc : ℚ)
  | self_consumption (self_consumption_ratio retail_price feedin_price : ℚ)
deriving DecidableEq

/-- The validated attributes set by `PVProject._validate_and_init_params`. -/
structure VParams where
  modeP : ModeParams
  capacity : ℚ
  static_invest : ℚ
  gen_hours : ℚ
  loan_rate : ℚ
  capital_ratio : ℚ
  loan_principal : ℚ
deriving DecidableEq

/-- `PVProject._validate_and_init_params` (together with `__init__`):
mode check, required-key check, numeric range checks, loan principal,
and the mode-specific required parameters. -/
def validate (raw : RawParams) : Except PyErr VParams :=
  let mode := raw.mode.getD "full_grid"
  if mode ≠ "full_grid" ∧ mode ≠ "self_consumption" then .error .validationError
  else if (pget raw.entries "capacity_mw").isNone ∨ (pget raw.entries "static_invest").isNone then
    .error .validationError
  else
    let capacity := pgetD raw.entries "capacity_mw" 0
    let static_invest := pgetD raw.entries "static_invest" 0
    let gen_hours := pgetD raw.entries "hours" 1000
    let loan_rate := pgetD raw.entries "loan_rate" (49/1000)
    let capital_ratio := pgetD raw.entries "capital_ratio" (2/10)
    if capacity ≤ 0 then .error .validationError
    else if static_invest ≤ 0 then .error .validationError
    else if gen_hours ≤ 0 then .error .validationError
    else if ¬ (0 < capital_ratio ∧ capital_ratio ≤ 1) then .error .validationError
    else
      let loan_principal := static_invest * (1 - capital_ratio)
      if mode = "full_grid" then
        match pget raw.entries "price_tax_inc" with
        | none => .error .validationError
        | some price =>
            .ok { modeP := .full_grid price, capacity, static_invest, gen_hours,
                  loan_rate, capital_ratio, loan_principal }
      else
        match pget raw.entries "self_consumption_ratio",
              pget raw.entries "retail_price", pget raw.entries "feedin_price" with
        | some scr, some rp, some fp =>
            if ¬ (0 ≤ scr ∧ scr ≤ 1) then .error .validationError
            else .ok { modeP := .self_consumption scr rp fp, capacity, static_invest,
                       gen_hours, loan_rate, capital_ratio, loan_principal }
        | _, _, _ => .error .validationError

/-- The per-build environment of `calculate_cash_flow`: validated parameters
plus the quantities computed once before the per-year loop
(construction interest, working capital, total investment, and the initial
deduction pool read from the raw dictionary with the 13% estimate default). -/
structure Env where
  vp : VParams
  deductible_tax : ℚ
  const_interest : ℚ
  working_capital : ℚ
  total_invest : ℚ
deriving DecidableEq

/-- Section A of `calculate_cash_flow` (with `_calc_construction_interest`):
`const_interest = (loan_principal / 2) * loan_rate`,
`working_capital = capacity * 3.0`, `total_invest = static + interest + wc`,
and the deduction pool from the `deductible_tax` entry, with the
`static / 1.13 * 0.13` estimate as default. -/
def mkEnv (raw : RawParams) (vp : VParams) : Env :=
  let const_interest := vp.loan_principal / 2 * vp.loan_rate
  let working_capital := vp.capacity * working_capital_per_mw
  { vp := vp
    deductible_tax :=
      pgetD raw.entries "deductible_tax" (vp.static_invest / (1 + vat_rate) * vat_rate)
    const_interest
    working_capital
    total_invest := vp.static_invest + const_interest + working_capital }

/-- Yearly generation (MWh): `capacity * gen_hours` (flat, no degradation). -/
def generationOf (E : Env) : ℚ := E.vp.capacity * E.vp.gen_hours

/-- Gross (tax-inclusive) revenue of an operating year.  In self-consumption
mode only the surplus fed into the grid carries tax-inclusive revenue. -/
def revIncOf (E : Env) : ℚ :=
  match E.vp.modeP with
  | .full_grid price => generationOf E * 1000 * price / 10000
  | .self_consumption scr _ fp => generationOf E * (1 - scr) * 1000 * fp / 10000

/-- Net-of-VAT revenue of an operating year. -/
def revExcOf (E : Env) : ℚ :=
  match E.vp.modeP with
  | .full_grid price => generationOf E * 1000 * price / 10000 / (1 + vat_rate)
  | .self_consumption scr rp fp =>
      generationOf E * scr * 1000 * rp / 10000 / (1 + vat_rate)
      + generationOf E * (1 - scr) * 1000 * fp / 10000 / (1 + vat_rate)

/-- Output VAT of an operating year: gross minus net revenue
(surplus part only in self-consumption mode). -/
def outputVatOf (E : Env) : ℚ :=
  match E.vp.modeP with
  | .full_grid price =>
      generationOf E * 1000 * price / 10000
      - generationOf E * 1000 * price / 10000 / (1 + vat_rate)
  | .self_consumption scr _ fp =>
      generationOf E * (1 - scr) * 1000 * fp / 10000
      - generationOf E * (1 - scr) * 1000 * fp / 10000 / (1 + vat_rate)

/-- O&M plus overhead cost of operating year `op_year`. -/
def omCostOf (E : Env) (op_year : ℕ) : ℚ :=
  E.vp.capacity * 1000 * om_rate op_year / 10000
  + E.vp.static_invest * other_cost_ratio

/-- Straight-line depreciation used in the taxable-profit computation:
`(static + const_interest - deductible) * 0.95 / 20` inside the 20-year
horizon, zero outside it. -/
def depreciationOf (E : Env) (op_year : ℕ) : ℚ :=
  if op_year ≤ depreciation_years then
    (E.vp.static_invest + E.const_interest - E.deductible_tax)
      * depreciation_base_ratio / (depreciation_years : ℚ)
  else 0

/-- The tax-holiday income tax rate of operating year `op_year`
(three years exempt, three years half-rate, then the full 25%). -/
def taxRateOf (op_year : ℕ) : ℚ :=
  if op_year ≤ 3 then 0
  else if op_year ≤ 6 then income_tax_rate * (5/10)
  else income_tax_rate

/-- One row of the cash-flow DataFrame.  `total_cost` and `profit_total` are
initialized to `0.0` in the source and never written afterwards. -/
structure Row where
  generation : ℚ
  revenue_inc : ℚ
  revenue_exc : ℚ
  output_vat : ℚ
  om_cost : ℚ
  vat_payable : ℚ
  surtax : ℚ
  total_cost : ℚ
  profit_total : ℚ
  income_tax : ℚ
  net_cf_pre : ℚ
  net_cf_after : ℚ
deriving DecidableEq

/-- The deduction-pool update of one loop iteration (`current_deductible`). -/
def poolStep (pool ovat : ℚ) : ℚ :=
  if pool > 0 then (if pool ≥ ovat then pool - ovat else 0) else pool

/-- The VAT actually payable in one loop iteration, given the pool on entry. -/
def vatPayStep (pool ovat : ℚ) : ℚ :=
  if pool > 0 then (if pool ≥ ovat then 0 else ovat - pool) else ovat

/-- One iteration of the per-year loop of `calculate_cash_flow`: produces the
DataFrame row for operating year `op_year` and the deduction pool carried to
the next year.  The conditional pool/VAT update of the source is written as
the two projections `vatPayStep`/`poolStep` of the same case split. -/
def opStep (E : Env) (pool : ℚ) (op_year : ℕ) : Row × ℚ :=
  let rev_inc := revIncOf E
  let rev_exc := revExcOf E
  let output_vat := outputVatOf E
  let om_cost := omCostOf E op_year
  let vat_pay := vatPayStep pool output_vat
  let pool' := poolStep pool output_vat
  let surtax := vat_pay * surtax_rate
  let depreciation := depreciationOf E op_year
  let profit := rev_exc - om_cost - surtax - depreciation
  let income_tax := max 0 (profit * taxRateOf op_year)
  let inflow := rev_exc +
    (if op_year = operation_period then
        E.vp.static_invest * residual_ratio + E.working_capital
     else 0)
  let outflow := om_cost + surtax
  ({ generation := generationOf E
     revenue_inc := rev_inc
     revenue_exc := rev_exc
     output_vat := output_vat
     om_cost := om_cost
     vat_payable := vat_pay
     surtax := surtax
     total_cost := 0
     profit_total := 0
     income_tax := income_tax
     net_cf_pre := inflow - outflow
     net_cf_after := inflow - outflow - income_tax }, pool')

/-- The construction-period row (index 1 of the DataFrame): only the two net
cash-flow columns are written, both to `-(static_invest + working_capital)`. -/
def constructionRow (E : Env) : Row :=
  { generation := 0, revenue_inc := 0, revenue_exc := 0, output_vat := 0,
    om_cost := 0, vat_payable := 0, surtax := 0, total_cost := 0,
    profit_total := 0, income_tax := 0,
    net_cf_pre := -(E.vp.static_invest + E.working_capital),
    net_cf_after := -(E.vp.static_invest + E.working_capital) }

/-- The per-year loop, threading the deduction pool exactly as the Python
`for y in range(2, OPERATION_PERIOD + 2)` loop does. -/
def opRows (E : Env) : ℚ → ℕ → ℕ → List Row
  | _, _, 0 => []
  | pool, op_year, n + 1 =>
      (opStep E pool op_year).1 :: opRows E (opStep E pool op_year).2 (op_year + 1) n

/-- The full 26-row ledger built by `calculate_cash_flow` (construction row
followed by operating years 1..25). -/
def ledgerRows (E : Env) : List Row :=
  constructionRow E :: opRows E E.deductible_tax 1 operation_period

/-- The observable result of `calculate_cash_flow`: the DataFrame plus the
`total_invest` / `const_interest` attributes stored on the project. -/
structure LedgerOut where
  rows : List Row
  total_invest : ℚ
  const_interest : ℚ
deriving DecidableEq

/-- `PVProject(params)` followed by `calculate_cash_flow()`: validation, then
the pure ledger build (whose arithmetic cannot fail in the exact-rational
idealization). -/
def engineRun (raw : RawParams) : Except PyErr LedgerOut :=
  match validate raw with
  | .error e => .error e
  | .ok vp =>
      let E := mkEnv raw vp
      .ok { rows := ledgerRows E, total_invest := E.total_invest,
            const_interest := E.const_interest }

/-- `n` applications of the yearly pool update (the output VAT is the same
every operating year, since generation and prices are flat). -/
def poolIter (E : Env) (pool : ℚ) : ℕ → ℚ
  | 0 => pool
  | n + 1 => poolStep (poolIter E pool n) (outputVatOf E)

/-- The deduction pool entering operating year `n + 1` (so `poolBeforeYear E 0`
is the initial deductible-tax amount). -/
def poolBeforeYear (E : Env) (n : ℕ) : ℚ :=
  poolIter E E.deductible_tax n

/-- Running cumulative sums (`np.cumsum`), with accumulator `acc`. -/
def cumsumFrom (acc : ℚ) : List ℚ → List ℚ
  | [] => []
  | c :: cs => (acc + c) :: cumsumFrom (acc + c) cs

/-- `np.cumsum` of a cash-flow sequence. -/
def cumsumList (l : List ℚ) : List ℚ := cumsumFrom 0 l

/-- First 0-based index of an element satisfying the predicate
(`np.where(...)[0]` followed by taking the first hit). -/
def firstIdxWhere (p : ℚ → Bool) : List ℚ → Option ℕ
  | [] => none
  | c :: cs => if p c then some 0 else (firstIdxWhere p cs).map (· + 1)

/-- The static payback computation of `get_metrics` (indices are 0-based
positions in the 26-entry post-tax cash-flow array, as in the source):
first position where the cumulative sum is nonnegative, interpolated;
sentinel `99.9` when the cumulative sum never turns nonnegative. -/
def paybackOf (cf_after : List ℚ) : ℚ :=
  let cumsum := cumsumList cf_after
  match firstIdxWhere (fun c => decide (0 ≤ c)) cumsum with
  | some p_idx =>
      if 0 < p_idx then
        (p_idx : ℚ) - 1 + |cumsum.getD (p_idx - 1) 0| / cf_after.getD p_idx 0
      else 1
  | none => 999/10

/-- Python `round` ties-to-even on an exact rational. -/
def roundHalfEven (x : ℚ) : ℤ :=
  let f := ⌊x⌋
  if x - f < 1/2 then f
  else if x - f > 1/2 then f + 1
  else if f % 2 = 0 then f else f + 1

/-- Python `round(x, 2)` in the exact-rational idealization. -/
def pyRound2 (x : ℚ) : ℚ := (roundHalfEven (x * 100) : ℚ) / 100

/-- The metrics dictionary returned by `get_metrics`. -/
structure MetricsOut where
  total_invest : ℚ
  const_interest : ℚ
  irr_pre : ℚ
  irr_after : ℚ
  payback_years : ℚ
deriving DecidableEq

/-- Pre-tax net cash-flow column of a ledger. -/
def cfPre (out : LedgerOut) : List ℚ := out.rows.map Row.net_cf_pre

/-- Post-tax net cash-flow column of a ledger. -/
def cfAfter (out : LedgerOut) : List ℚ := out.rows.map Row.net_cf_after

/-- `PVProject.get_metrics` on a built ledger.  `irrF` models
`numpy_financial.irr` (an external numeric routine that may raise);
everything else is the arithmetic of the source. -/
def getMetrics (irrF : List ℚ → Except PyErr ℚ) (out : LedgerOut) :
    Except PyErr MetricsOut := do
  let irr_pre ← irrF (cfPre out)
  let irr_after ← irrF (cfAfter out)
  let payback := paybackOf (cfAfter out)
  pure { total_invest := pyRound2 out.total_invest
         const_interest := pyRound2 out.const_interest
         irr_pre := pyRound2 (irr_pre * 100)
         irr_after := pyRound2 (irr_after * 100)
         payback_years := pyRound2 payback }

/-- Net present value `∑ i, cf[i] / (1+r)^i` over ℚ: the function whose root
`numpy_financial.irr` reports. -/
def npv (r : ℚ) : List ℚ → ℚ
  | [] => 0
  | c :: cs => c + npv r cs / (1 + r)

/-- The NPV of the flows changes (weak) sign across the rate window
`[lo, hi]`.  For a flow sequence whose NPV is strictly decreasing in the
rate this is exactly the statement that the internal rate of return lies in
the window. -/
abbrev signChangeWithin (cf : List ℚ) (lo hi : ℚ) : Prop :=
  npv hi cf ≤ 0 ∧ 0 ≤ npv lo cf

/-- The full engine-plus-metrics pipeline of one trial, as run inside
`sensitivity_analysis` and `goal_seek_investment`; any raised exception is
an `.error`. -/
def pipelineIrr (irrF : List ℚ → Except PyErr ℚ) (raw : RawParams) :
    Except PyErr ℚ := do
  let out ← engineRun raw
  let m ← getMetrics irrF out
  pure m.irr_pre

/-- The body of the per-offset `try` block of `sensitivity_analysis`, as an
`Option`: the pre-tax IRR of the perturbed run, or `none` when any exception
was raised (the `except` branch records the value `None`). -/
def basePipeline (irrF : List ℚ → Except PyErr ℚ) (raw : RawParams) : Option ℚ :=
  match pipelineIrr irrF raw with
  | .ok v => some v
  | .error _ => none

/-- One swept offset of `sensitivity_analysis`: store the perturbed value
under the *factor* key and run the pipeline. -/
def sensOffset (irrF : List ℚ → Except PyErr ℚ) (base : RawParams)
    (factor : String) (new_value : ℚ) : Option ℚ :=
  basePipeline irrF { base with entries := pinsert base.entries factor new_value }

/-- `np.linspace(a, b, num)` with inclusive endpoints. -/
def linspace (a b : ℚ) (num : ℕ) : List ℚ :=
  if num = 0 then []
  else if num = 1 then [a]
  else (List.range num).map (fun i : ℕ => a + (b - a) * (i : ℚ) / ((num : ℚ) - 1))

/-- The base-value resolution at the top of `sensitivity_analysis`:
direct key, the `price`/`price_tax_inc` and `hours`/`gen_hours` aliases, and
a raised `ValueError` for an unknown factor.  An `.ok none` means the Python
`None` survived (missing alias target) and the later multiplication raises. -/
def resolveBase (base : RawParams) (factor : String) : Except PyErr (Option ℚ) :=
  match pget base.entries factor with
  | some v => .ok (some v)
  | none =>
      if factor = "price" ∨ factor = "price_tax_inc" then
        .ok (pget base.entries "price_tax_inc")
      else if factor = "hours" ∨ factor = "gen_hours" then
        .ok (some (pgetD base.entries "hours" 1000))
      else .error .valueError

/-- One row of the sensitivity result table.  The offset is kept as a
rational (the source stores it as a sign-carrying percent string); a `none`
IRR models the `None` recorded for a failed run (a NaN in the DataFrame). -/
structure SensRow where
  factor : String
  var_rate : ℚ
  value : ℚ
  irr_pre : Option ℚ
deriving DecidableEq

/-- The sensitivity result table: the swept rows plus the sensitivity
coefficient column appended afterwards (empty when the guard fails). -/
structure SensTable where
  rows : List SensRow
  coeff : List (Option ℚ)
deriving DecidableEq

/-- One row appended inside the sweep loop of `sensitivity_analysis`. -/
def sensRow (irrF : List ℚ → Except PyErr ℚ) (base : RawParams)
    (factor : String) (bv var : ℚ) : SensRow :=
  { factor := factor
    var_rate := var
    value := bv * (1 + var)
    irr_pre := sensOffset irrF base factor (bv * (1 + var)) }

/-- The trailing sensitivity-coefficient pass of `sensitivity_analysis`,
mirroring the float semantics of the source: the `0.0%` string comparison
never matches the sign-carrying format `+0.0%`, so the base IRR is the value
of the middle row
and every row gets a coefficient; `none` stands for the NaN/inf the float
arithmetic produces when a value is missing or a divisor is zero. -/
def sensCoeffCol (rows : List SensRow) : List (Option ℚ) :=
  if 0 < rows.length ∧ 2 ≤ (rows.filter (fun r => r.irr_pre.isSome)).length then
    let base_irr := (rows.get? (rows.length / 2)).bind (fun r => r.irr_pre)
    rows.map (fun r =>
      match base_irr, r.irr_pre with
      | some bi, some ir =>
          if bi = 0 ∨ r.var_rate = 0 then none
          else some ((ir - bi) / bi / r.var_rate)
      | _, _ => none)
  else []

/-- `sensitivity_analysis(base_params, factor, variation_range, steps)`:
resolve the base value (raising for an unknown factor), sweep the linspace
offsets appending one row per offset with per-offset failures recorded as
`none`, then append the coefficient column. -/
def sensitivity_analysis (irrF : List ℚ → Except PyErr ℚ) (base : RawParams)
    (factor : String) (variation_range : ℚ) (steps : ℕ) :
    Except PyErr SensTable := do
  let base_value ← resolveBase base factor
  let variations := linspace (-variation_range) variation_range steps
  let rows ←
    match base_value with
    | none =>
        -- `new_value = base_value * (1 + var)` raises a TypeError on the
        -- first iteration when the base value is Python None
        if variations.isEmpty then pure ([] : List SensRow)
        else (.error .otherError : Except PyErr (List SensRow))
    | some bv => pure (variations.map (sensRow irrF base factor bv))
  pure { rows := rows, coeff := sensCoeffCol rows }

/-- The objective closure of `goal_seek_investment`: replace the static
investment by the guess, re-estimate the deductible tax when it was not
explicitly pinned, and return pre-tax IRR minus the target. -/
def goalSeekObjective (irrF : List ℚ → Except PyErr ℚ) (params : RawParams)
    (target_irr : ℚ) (invest_guess : ℚ) : Except PyErr ℚ :=
  let p1 : RawParams :=
    { params with entries := pinsert params.entries "static_invest" invest_guess }
  let est := invest_guess / (1 + vat_rate) * vat_rate
  let p2 : RawParams :=
    if (pget p1.entries "deductible_tax").isSome then p1
    else { p1 with entries := pinsert p1.entries "deductible_tax" est }
  (pipelineIrr irrF p2).map (fun irr => irr - target_irr)

/-- `x or default` on an optional bound: Python `or` also replaces `0.0`. -/
def orDefault (x : Option ℚ) (d : ℚ) : ℚ :=
  match x with
  | none => d
  | some v => if v = 0 then d else v

/-- `goal_seek_investment(target_irr, params, min_invest, max_invest)`.
`solve` models `scipy.optimize.brentq`; both its `ValueError` (no sign
change in the bracket) and any exception propagated from the objective are
caught and turned into the undefined result `None`. -/
def goal_seek_investment
    (solve : (ℚ → Except PyErr ℚ) → ℚ → ℚ → Except PyErr ℚ)
    (irrF : List ℚ → Except PyErr ℚ) (target_irr : ℚ) (params : RawParams)
    (min_invest max_invest : Option ℚ) : Option ℚ :=
  let min_inv := orDefault min_invest min_invest_const
  let max_inv := orDefault max_invest max_invest_const
  match solve (goalSeekObjective irrF params target_irr) min_inv max_inv with
  | .ok v => some v
  | .error _ => none

/-- The documented bracketing contract of `scipy.optimize.brentq`: a
`ValueError` when both endpoint evaluations succeed with the same strict
sign, and propagation of exceptions raised by the objective at an endpoint. -/
structure SolverSpec
    (solve : (ℚ → Except PyErr ℚ) → ℚ → ℚ → Except PyErr ℚ) : Prop where
  same_sign : ∀ f a b fa fb, f a = .ok fa → f b = .ok fb → 0 < fa * fb →
    solve f a b = .error .valueError
  raise_left : ∀ f a b e, f a = .error e → solve f a b = .error e
  raise_right : ∀ f a b fa e, f a = .ok fa → f b = .error e →
    solve f a b = .error e

/-- The 100 MW demonstration scenario of `demo_qionghai_project`. -/
def qionghai_raw : RawParams :=
  { entries := [("capacity_mw", 100), ("static_invest", 40000),
                ("capital_ratio", 2/10), ("loan_rate", 4876/100000),
                ("hours", 1500), ("price_tax_inc", 4/10),
                ("deductible_tax", 4000)]
    mode := none }

/-- The validated parameters of the demonstration scenario. -/
def qionghai_vp : VParams :=
  { modeP := .full_grid (4/10), capacity := 100, static_invest := 40000,
    gen_hours := 1500, loan_rate := 4876/100000, capital_ratio := 2/10,
    loan_principal := 32000 }

/-- Pre-tax cash flows of a parameter set (empty when validation rejects). -/
def preFlows (raw : RawParams) : List ℚ :=
  match engineRun raw with
  | .ok out => cfPre out
  | .error _ => []

/-- Post-tax cash flows of a parameter set (empty when validation rejects). -/
def postFlows (raw : RawParams) : List ℚ :=
  match engineRun raw with
  | .ok out => cfAfter out
  | .error _ => []

/-- The NPV keeps one strict sign throughout the rate window `[lo, hi]`:
together with strict antitonicity of the NPV in the rate this refutes any
claim that the internal rate of return lies in the window.  Decidable from
the two endpoint evaluations alone. -/
abbrev npvPosAcross (cf : List ℚ) (lo hi : ℚ) : Prop :=
  0 < npv lo cf ∧ 0 < npv hi cf

/-- Dual of `npvPosAcross`: the NPV is strictly negative at both endpoints
of the window. -/
abbrev npvNegAcross (cf : List ℚ) (lo hi : ℚ) : Prop :=
  npv lo cf < 0 ∧ npv hi cf < 0

deriving instance DecidableEq for Except

/-- A constant (always succeeding) IRR oracle, used in concrete scenarios. -/
def irrConst : List ℚ → Except PyErr ℚ := fun _ => .ok (1/10)

/-- An always-raising IRR oracle, modelling a numeric failure inside
`numpy_financial.irr`. -/
def irrFail : List ℚ → Except PyErr ℚ := fun _ => .error .otherError

/-- A bracketed solver satisfying `SolverSpec`: it evaluates the objective at
both endpoints, propagates objective exceptions, raises `ValueError` when the
endpoint values share a strict sign, and otherwise reports the left endpoint. -/
def solveW (f : ℚ → Except PyErr ℚ) (a b : ℚ) : Except PyErr ℚ :=
  match f a with
  | .error e => .error e
  | .ok fa =>
      match f b with
      | .error e => .error e
      | .ok fb => if 0 < fa * fb then .error .valueError else .ok a

/-- A 100 MW scenario with a 95% capital ratio; perturbing the capital ratio
by +10% pushes it above 1 and the validation of that one trial raises. -/
def cr95_raw : RawParams :=
  { entries := [("capacity_mw", 100), ("static_invest", 40000),
                ("capital_ratio", 19/20), ("loan_rate", 4876/100000),
                ("hours", 1500), ("price_tax_inc", 4/10),
                ("deductible_tax", 4000)]
    mode := none }

/-- A parameter set accepted by validation (positive capacity, investment and
default hours; capital ratio defaulted) whose tariff is negative and whose
explicit deductible tax is zero. -/
def c1cex_raw : RawParams :=
  { entries := [("capacity_mw", 1), ("static_invest", 1),
                ("price_tax_inc", -1), ("deductible_tax", 0)]
    mode := none }

/-- The validated parameters of `c1cex_raw`. -/
def c1cex_vp : VParams :=
  { modeP := .full_grid (-1), capacity := 1, static_invest := 1,
    gen_hours := 1000, loan_rate := 49/1000, capital_ratio := 2/10,
    loan_principal := 1 * (1 - 2/10) }

/- ### Dictionary lemmas -/

theorem pget_pinsert_self (p : PDict) (k : String) (v : ℚ) :
    pget (pinsert p k v) k = some v := by
  induction p with
  | nil => simp [pinsert, pget]
  | cons kv rest ih =>
      obtain ⟨k0, v0⟩ := kv
      by_cases h : k0 = k
      · simp [pinsert, pget, h]
      · simp [pinsert, pget, h, ih]

theorem pget_pinsert_ne (p : PDict) (v : ℚ) {k kr : String} (h : kr ≠ k) :
    pget (pinsert p k v) kr = pget p kr := by
  have hk : k ≠ kr := Ne.symm h
  induction p with
  | nil => simp [pinsert, pget, hk]
  | cons kv rest ih =>
      obtain ⟨k0, v0⟩ := kv
      by_cases h0 : k0 = k
      · subst h0
        simp [pinsert, pget, hk]
      · simp [pinsert, pget, h0, ih]

/- ### Deduction-pool lemmas -/

theorem vatPayStep_eq_max {pool ovat : ℚ} (hp : 0 ≤ pool) (ho : 0 ≤ ovat) :
    vatPayStep pool ovat = max 0 (ovat - pool) := by
  unfold vatPayStep
  rcases lt_or_eq_of_le hp with h | h
  · simp only [h, if_pos]
    by_cases hge : pool ≥ ovat
    · simp [hge, max_eq_left, sub_nonpos.mpr hge]
    · rw [if_neg hge, max_eq_right (by linarith [not_le.mp hge])]
  · simp [← h, not_lt.mpr (le_refl (0:ℚ)), max_eq_right ho]

theorem poolStep_eq_sub_min {pool ovat : ℚ} (hp : 0 ≤ pool) (ho : 0 ≤ ovat) :
    poolStep pool ovat = pool - min pool ovat := by
  unfold poolStep
  rcases lt_or_eq_of_le hp with h | h
  · simp only [h, if_pos]
    by_cases hge : pool ≥ ovat
    · rw [if_pos hge, min_eq_right hge]
    · rw [if_neg hge, min_eq_left (le_of_lt (not_le.mp hge))]
      ring
  · simp [← h, min_eq_left ho]

theorem poolStep_le {pool ovat : ℚ} (ho : 0 ≤ ovat) :
    poolStep pool ovat ≤ pool := by
  unfold poolStep
  by_cases h : pool > 0
  · simp only [h, if_pos]
    by_cases hge : pool ≥ ovat
    · rw [if_pos hge]; linarith
    · rw [if_neg hge]; linarith
  · simp [h]

theorem poolStep_nonneg {pool ovat : ℚ} (hp : 0 ≤ pool) :
    0 ≤ poolStep pool ovat := by
  unfold poolStep
  by_cases h : pool > 0
  · simp only [h, if_pos]
    by_cases hge : pool ≥ ovat
    · rw [if_pos hge]; linarith
    · rw [if_neg hge]
  · simp only [h, if_neg, if_false]
    exact hp

theorem poolStep_zero (ovat : ℚ) : poolStep 0 ovat = 0 := by
  simp [poolStep]

theorem poolBeforeYear_succ (E : Env) (n : ℕ) :
    poolBeforeYear E (n + 1) = poolStep (poolBeforeYear E n) (outputVatOf E) := rfl

theorem poolBeforeYear_nonneg (E : Env) (ho : 0 ≤ outputVatOf E)
    (hp : 0 ≤ E.deductible_tax) : ∀ n, 0 ≤ poolBeforeYear E n := by
  intro n
  induction n with
  | zero => exact hp
  | succ n ih => exact poolStep_nonneg ih

theorem poolBeforeYear_antitone (E : Env) (ho : 0 ≤ outputVatOf E) :
    ∀ m n, m ≤ n → poolBeforeYear E n ≤ poolBeforeYear E m := by
  intro m n h
  induction n with
  | zero => simp_all
  | succ n ih =>
      rcases Nat.lt_or_ge m (n + 1) with hlt | hge
      · exact le_trans (poolStep_le ho) (ih (Nat.lt_succ_iff.mp hlt))
      · have : m = n + 1 := le_antisymm h hge
        simp [this]

theorem poolBeforeYear_zero_absorb (E : Env) :
    ∀ m n, m ≤ n → poolBeforeYear E m = 0 → poolBeforeYear E n = 0 := by
  intro m n h h0
  induction n with
  | zero => simpa [Nat.le_zero.mp h] using h0
  | succ n ih =>
      rcases Nat.lt_or_ge m (n + 1) with hlt | hge
      · rw [poolBeforeYear_succ, ih (Nat.lt_succ_iff.mp hlt), poolStep_zero]
      · have : m = n + 1 := le_antisymm h hge
        rw [← this]; exact h0

/- ### Ledger indexing lemmas -/

theorem opStep_snd (E : Env) (pool : ℚ) (y : ℕ) :
    (opStep E pool y).2 = poolStep pool (outputVatOf E) := rfl

theorem opRows_length (E : Env) : ∀ (n : ℕ) (pool : ℚ) (y : ℕ),
    (opRows E pool y n).length = n := by
  intro n
  induction n with
  | zero => intro pool y; rfl
  | succ n ih => intro pool y; simp [opRows, ih]

theorem poolIter_shift (E : Env) (pool : ℚ) :
    ∀ i, poolIter E (poolStep pool (outputVatOf E)) i = poolIter E pool (i + 1) := by
  intro i
  induction i with
  | zero => rfl
  | succ i ih => simp [poolIter, ih]

theorem opRows_get? (E : Env) : ∀ (n : ℕ) (pool : ℚ) (y i : ℕ), i < n →
    (opRows E pool y n).get? i = some (opStep E (poolIter E pool i) (y + i)).1 := by
  intro n
  induction n with
  | zero => intro pool y i h; omega
  | succ n ih =>
      intro pool y i h
      cases i with
      | zero => simp [opRows, poolIter]
      | succ i =>
          have hi : i < n := by omega
          simp only [opRows, List.get?_cons_succ]
          rw [ih _ (y + 1) i hi, opStep_snd, poolIter_shift]
          have hyi : y + 1 + i = y + (i + 1) := by omega
          rw [hyi]

theorem ledgerRows_get?_op (E : Env) (y : ℕ) (h1 : 1 ≤ y) (h2 : y ≤ operation_period) :
    (ledgerRows E).get? y = some (opStep E (poolBeforeYear E (y - 1)) y).1 := by
  obtain ⟨i, rfl⟩ : ∃ i, y = i + 1 := ⟨y - 1, by omega⟩
  have hi : i < operation_period := by omega
  simp only [ledgerRows, List.get?_cons_succ]
  rw [opRows_get? E operation_period E.deductible_tax 1 i hi]
  have : 1 + i = i + 1 := by omega
  rw [this]
  rfl

theorem ledgerRows_get?_zero (E : Env) :
    (ledgerRows E).get? 0 = some (constructionRow E) := rfl

/- ### NPV monotonicity lemmas -/

theorem npv_nonneg {cf : List ℚ} (h : ∀ c ∈ cf, 0 ≤ c) {r : ℚ} (hr : -1 < r) :
    0 ≤ npv r cf := by
  induction cf with
  | nil => simp [npv]
  | cons c cs ih =>
      have hc : 0 ≤ c := h c (List.mem_cons_self c cs)
      have hcs : 0 ≤ npv r cs := ih (fun x hx => h x (List.mem_cons_of_mem c hx))
      have hden : 0 < 1 + r := by linarith
      have : 0 ≤ npv r cs / (1 + r) := div_nonneg hcs (le_of_lt hden)
      simp only [npv]
      linarith

theorem npv_pos {cf : List ℚ} (h : ∀ c ∈ cf, 0 ≤ c) (hx : ∃ c ∈ cf, 0 < c)
    {r : ℚ} (hr : -1 < r) : 0 < npv r cf := by
  induction cf with
  | nil => simp at hx
  | cons c cs ih =>
      have hc : 0 ≤ c := h c (List.mem_cons_self c cs)
      have hcs : 0 ≤ npv r cs := npv_nonneg (fun x hx0 => h x (List.mem_cons_of_mem c hx0)) hr
      have hden : 0 < 1 + r := by linarith
      simp only [npv]
      obtain ⟨d, hd, hdpos⟩ := hx
      rcases List.mem_cons.mp hd with hdc | hdcs
      · subst hdc
        have : 0 ≤ npv r cs / (1 + r) := div_nonneg hcs (le_of_lt hden)
        linarith
      · have hpos : 0 < npv r cs :=
          ih (fun x hx0 => h x (List.mem_cons_of_mem c hx0)) ⟨d, hdcs, hdpos⟩
        have : 0 < npv r cs / (1 + r) := div_pos hpos hden
        linarith

theorem npv_anti {cf : List ℚ} (h : ∀ c ∈ cf, 0 ≤ c) {r s : ℚ}
    (hr : -1 < r) (hrs : r < s) : npv s cf ≤ npv r cf := by
  induction cf with
  | nil => simp [npv]
  | cons c cs ih =>
      have hcs_s : 0 ≤ npv s cs :=
        npv_nonneg (fun x hx => h x (List.mem_cons_of_mem c hx)) (by linarith)
      have hcs : npv s cs ≤ npv r cs := ih (fun x hx => h x (List.mem_cons_of_mem c hx))
      have hdr : 0 < 1 + r := by linarith
      have hds : 0 < 1 + s := by linarith
      have key : npv s cs / (1 + s) ≤ npv r cs / (1 + r) :=
        div_le_div (le_trans hcs_s hcs) hcs hdr (by linarith)
      simp only [npv]
      linarith

theorem npv_strict_anti {c0 : ℚ} {cs : List ℚ} (h : ∀ c ∈ cs, 0 ≤ c)
    (hx : ∃ c ∈ cs, 0 < c) {r s : ℚ} (hr : -1 < r) (hrs : r < s) :
    npv s (c0 :: cs) < npv r (c0 :: cs) := by
  have hs1 : (-1 : ℚ) < s := by linarith
  have hdr : 0 < 1 + r := by linarith
  have hds : 0 < 1 + s := by linarith
  have hpos_s : 0 < npv s cs := npv_pos h hx hs1
  have hle : npv s cs ≤ npv r cs := npv_anti h hr hrs
  have k1 : npv s cs / (1 + s) < npv s cs / (1 + r) :=
    div_lt_div_of_pos_left hpos_s hdr (by linarith)
  have k2 : npv s cs / (1 + r) ≤ npv r cs / (1 + r) :=
    (div_le_div_right hdr).mpr hle
  simp only [npv]
  linarith

/- ### First-index lemmas -/

theorem firstIdxWhere_eq_none {p : ℚ → Bool} {l : List ℚ}
    (h : ∀ c ∈ l, p c = false) : firstIdxWhere p l = none := by
  induction l with
  | nil => rfl
  | cons c cs ih =>
      have hc := h c (List.mem_cons_self c cs)
      simp [firstIdxWhere, hc, ih (fun x hx => h x (List.mem_cons_of_mem c hx))]

theorem firstIdxWhere_eq_some {p : ℚ → Bool} :
    ∀ (l : List ℚ) (i : ℕ) (c : ℚ), l.get? i = some c → p c = true →
      (∀ j cj, j < i → l.get? j = some cj → p cj = false) →
      firstIdxWhere p l = some i := by
  intro l
  induction l with
  | nil => intro i c hget; simp at hget
  | cons a as ih =>
      intro i c hget hp hmin
      cases i with
      | zero =>
          simp only [List.get?_cons_zero, Option.some.injEq] at hget
          subst hget
          simp [firstIdxWhere, hp]
      | succ i =>
          have ha : p a = false := hmin 0 a (Nat.succ_pos i) rfl
          simp only [List.get?_cons_succ] at hget
          have : firstIdxWhere p as = some i :=
            ih i c hget hp (fun j cj hj hgj => hmin (j + 1) cj (by omega) hgj)
          simp [firstIdxWhere, ha, this]

/- ### Row projections of one loop iteration (all definitional) -/

theorem opStep_vat_payable (E : Env) (pool : ℚ) (y : ℕ) :
    (opStep E pool y).1.vat_payable = vatPayStep pool (outputVatOf E) := rfl

theorem opStep_revenue_exc (E : Env) (pool : ℚ) (y : ℕ) :
    (opStep E pool y).1.revenue_exc = revExcOf E := rfl

theorem opStep_om_cost (E : Env) (pool : ℚ) (y : ℕ) :
    (opStep E pool y).1.om_cost = omCostOf E y := rfl

theorem opStep_surtax (E : Env) (pool : ℚ) (y : ℕ) :
    (opStep E pool y).1.surtax = vatPayStep pool (outputVatOf E) * surtax_rate := rfl

theorem opStep_income_tax (E : Env) (pool : ℚ) (y : ℕ) :
    (opStep E pool y).1.income_tax
      = max 0 ((revExcOf E - omCostOf E y - vatPayStep pool (outputVatOf E) * surtax_rate
                - depreciationOf E y) * taxRateOf y) := rfl

theorem opStep_net_cf_pre (E : Env) (pool : ℚ) (y : ℕ) :
    (opStep E pool y).1.net_cf_pre
      = revExcOf E
        + (if y = operation_period then
             E.vp.static_invest * residual_ratio + E.working_capital else 0)
        - (omCostOf E y + vatPayStep pool (outputVatOf E) * surtax_rate) := rfl

theorem opStep_net_cf_after (E : Env) (pool : ℚ) (y : ℕ) :
    (opStep E pool y).1.net_cf_after
      = revExcOf E
        + (if y = operation_period then
             E.vp.static_invest * residual_ratio + E.working_capital else 0)
        - (omCostOf E y + vatPayStep pool (outputVatOf E) * surtax_rate)
        - max 0 ((revExcOf E - omCostOf E y - vatPayStep pool (outputVatOf E) * surtax_rate
                  - depreciationOf E y) * taxRateOf y) := rfl

/-- C1 (amended): during a single ledger build on validated parameters, and
provided the yearly output VAT and the initial deduction pool are both
nonnegative, every operating period records
`vat_pay = max(0, output_vat - pool_before)` and the pool is decremented by
`min(pool_before, output_vat)`; consequently the pool is monotonically
non-increasing, never negative, and absorbing at zero. -/
theorem c1_pool_invariants (raw : RawParams) (vp : VParams)
    (h : validate raw = .ok vp)
    (hov : 0 ≤ outputVatOf (mkEnv raw vp))
    (hp0 : 0 ≤ (mkEnv raw vp).deductible_tax) :
    (∀ y, 1 ≤ y → y ≤ operation_period →
      ∃ r, (ledgerRows (mkEnv raw vp)).get? y = some r ∧
        r.vat_payable
          = max 0 (outputVatOf (mkEnv raw vp) - poolBeforeYear (mkEnv raw vp) (y - 1)) ∧
        poolBeforeYear (mkEnv raw vp) y
          = poolBeforeYear (mkEnv raw vp) (y - 1)
            - min (poolBeforeYear (mkEnv raw vp) (y - 1)) (outputVatOf (mkEnv raw vp))) ∧
    (∀ m n, m ≤ n → poolBeforeYear (mkEnv raw vp) n ≤ poolBeforeYear (mkEnv raw vp) m) ∧
    (∀ n, 0 ≤ poolBeforeYear (mkEnv raw vp) n) ∧
    (∀ m n, m ≤ n → poolBeforeYear (mkEnv raw vp) m = 0 →
      poolBeforeYear (mkEnv raw vp) n = 0) := by
  set E := mkEnv raw vp with hE
  refine ⟨?_, poolBeforeYear_antitone E hov, poolBeforeYear_nonneg E hov hp0,
          poolBeforeYear_zero_absorb E⟩
  intro y h1 h2
  refine ⟨_, ledgerRows_get?_op E y h1 h2, ?_, ?_⟩
  · rw [opStep_vat_payable]
    exact vatPayStep_eq_max (poolBeforeYear_nonneg E hov hp0 (y - 1)) hov
  · obtain ⟨i, rfl⟩ : ∃ i, y = i + 1 := ⟨y - 1, by omega⟩
    simp only [Nat.add_sub_cancel]
    rw [poolBeforeYear_succ]
    exact poolStep_eq_sub_min (poolBeforeYear_nonneg E hov hp0 i) hov

/-- C1 witness: the invariants instantiated on the 100 MW demonstration
scenario, whose output VAT and initial deduction pool are nonnegative. -/
theorem c1_pool_invariants_witness :
    validate qionghai_raw = .ok qionghai_vp ∧
    0 ≤ outputVatOf (mkEnv qionghai_raw qionghai_vp) ∧
    0 ≤ (mkEnv qionghai_raw qionghai_vp).deductible_tax ∧
    ((∀ y, 1 ≤ y → y ≤ operation_period →
      ∃ r, (ledgerRows (mkEnv qionghai_raw qionghai_vp)).get? y = some r ∧
        r.vat_payable
          = max 0 (outputVatOf (mkEnv qionghai_raw qionghai_vp)
                   - poolBeforeYear (mkEnv qionghai_raw qionghai_vp) (y - 1)) ∧
        poolBeforeYear (mkEnv qionghai_raw qionghai_vp) y
          = poolBeforeYear (mkEnv qionghai_raw qionghai_vp) (y - 1)
            - min (poolBeforeYear (mkEnv qionghai_raw qionghai_vp) (y - 1))
                  (outputVatOf (mkEnv qionghai_raw qionghai_vp))) ∧
    (∀ m n, m ≤ n → poolBeforeYear (mkEnv qionghai_raw qionghai_vp) n
        ≤ poolBeforeYear (mkEnv qionghai_raw qionghai_vp) m) ∧
    (∀ n, 0 ≤ poolBeforeYear (mkEnv qionghai_raw qionghai_vp) n) ∧
    (∀ m n, m ≤ n → poolBeforeYear (mkEnv qionghai_raw qionghai_vp) m = 0 →
      poolBeforeYear (mkEnv qionghai_raw qionghai_vp) n = 0)) :=
  ⟨by with_unfolding_all rfl, of_decide_eq_true (by with_unfolding_all rfl),
   of_decide_eq_true (by with_unfolding_all rfl),
   c1_pool_invariants qionghai_raw qionghai_vp (by with_unfolding_all rfl)
     (of_decide_eq_true (by with_unfolding_all rfl))
     (of_decide_eq_true (by with_unfolding_all rfl))⟩

/-- C1 counterexample: the parameter set `c1cex_raw` (negative tariff, zero
explicit deductible tax) is accepted by validation, yet the first operating
year records a VAT payable of `-1300/113`, while the formula of the claim
`max(0, output_vat - pool_before)` evaluates to `0`. -/
theorem c1_counterexample :
    validate c1cex_raw = .ok c1cex_vp ∧
    ((ledgerRows (mkEnv c1cex_raw c1cex_vp)).get? 1).map Row.vat_payable
      = some (-1300/113) ∧
    max 0 (outputVatOf (mkEnv c1cex_raw c1cex_vp)
           - poolBeforeYear (mkEnv c1cex_raw c1cex_vp) 0) = 0 ∧
    (-1300/113 : ℚ) ≠ 0 :=
  ⟨by with_unfolding_all rfl, by with_unfolding_all rfl, by with_unfolding_all rfl,
   of_decide_eq_true (by with_unfolding_all rfl)⟩

/-- C2: for every parameter set accepted by validation, `calculate_cash_flow`
builds a ledger whose first (construction) period has pre-tax and post-tax
net cash flow `-(static investment + working capital)` with working capital
`capacity * 3.0`, and whose final period (period 26) adds the residual value
`static investment * 0.05` plus the returned working capital on top of that
net revenue of that period minus operating cost minus surtax (minus income tax for
the post-tax flow). -/
theorem c2_first_and_final (raw : RawParams) (vp : VParams)
    (h : validate raw = .ok vp) :
    engineRun raw = .ok { rows := ledgerRows (mkEnv raw vp),
                          total_invest := (mkEnv raw vp).total_invest,
                          const_interest := (mkEnv raw vp).const_interest } ∧
    (mkEnv raw vp).working_capital = vp.capacity * 3 ∧
    (∃ r0, (ledgerRows (mkEnv raw vp)).get? 0 = some r0 ∧
      r0.net_cf_pre = -(vp.static_invest + (mkEnv raw vp).working_capital) ∧
      r0.net_cf_after = -(vp.static_invest + (mkEnv raw vp).working_capital)) ∧
    (∃ r, (ledgerRows (mkEnv raw vp)).get? operation_period = some r ∧
      r.net_cf_pre = r.revenue_exc - r.om_cost - r.surtax
        + (vp.static_invest * residual_ratio + (mkEnv raw vp).working_capital) ∧
      r.net_cf_after = r.revenue_exc - r.om_cost - r.surtax - r.income_tax
        + (vp.static_invest * residual_ratio + (mkEnv raw vp).working_capital)) := by
  set E := mkEnv raw vp with hE
  refine ⟨?_, rfl, ⟨constructionRow E, rfl, rfl, rfl⟩, ?_⟩
  · unfold engineRun
    rw [h]
  · have hvp : E.vp.static_invest = vp.static_invest := rfl
    refine ⟨_, ledgerRows_get?_op E operation_period (by decide) (le_refl _), ?_, ?_⟩
    · rw [opStep_net_cf_pre, opStep_revenue_exc, opStep_om_cost, opStep_surtax,
          if_pos rfl, hvp]
      ring
    · rw [opStep_net_cf_after, opStep_revenue_exc, opStep_om_cost, opStep_surtax,
          opStep_income_tax, if_pos rfl, hvp]
      ring

/-- C2 witness: the first/final-period shape instantiated on the 100 MW
demonstration scenario. -/
theorem c2_first_and_final_witness :
    validate qionghai_raw = .ok qionghai_vp ∧
    (mkEnv qionghai_raw qionghai_vp).working_capital = qionghai_vp.capacity * 3 ∧
    (∃ r0, (ledgerRows (mkEnv qionghai_raw qionghai_vp)).get? 0 = some r0 ∧
      r0.net_cf_pre
        = -(qionghai_vp.static_invest + (mkEnv qionghai_raw qionghai_vp).working_capital) ∧
      r0.net_cf_after
        = -(qionghai_vp.static_invest + (mkEnv qionghai_raw qionghai_vp).working_capital)) ∧
    (∃ r, (ledgerRows (mkEnv qionghai_raw qionghai_vp)).get? operation_period = some r ∧
      r.net_cf_pre = r.revenue_exc - r.om_cost - r.surtax
        + (qionghai_vp.static_invest * residual_ratio
           + (mkEnv qionghai_raw qionghai_vp).working_capital) ∧
      r.net_cf_after = r.revenue_exc - r.om_cost - r.surtax - r.income_tax
        + (qionghai_vp.static_invest * residual_ratio
           + (mkEnv qionghai_raw qionghai_vp).working_capital)) := by
  have h : validate qionghai_raw = .ok qionghai_vp := by with_unfolding_all rfl
  obtain ⟨-, h2, h3, h4⟩ := c2_first_and_final qionghai_raw qionghai_vp h
  exact ⟨h, h2, h3, h4⟩

/-- C3: for every parameter set accepted by validation and every operating
year `y` in 1..25, the recorded income tax is
`max(0, (net revenue - operating cost - surtax - depreciation) * rate)` with
rate `0` for `y ≤ 3`, half the 25% statutory rate (12.5%) for `4 ≤ y ≤ 6`
and the full 25% for `y ≥ 7`; in particular it is never negative, whatever
the sign of the taxable profit. -/
theorem c3_income_tax (raw : RawParams) (vp : VParams)
    (h : validate raw = .ok vp) :
    ∀ y, 1 ≤ y → y ≤ operation_period →
      ∃ r, (ledgerRows (mkEnv raw vp)).get? y = some r ∧
        r.income_tax
          = max 0 ((r.revenue_exc - r.om_cost - r.surtax
                    - depreciationOf (mkEnv raw vp) y) * taxRateOf y) ∧
        taxRateOf y = (if y ≤ 3 then 0 else if y ≤ 6 then 125/1000 else 25/100) ∧
        0 ≤ r.income_tax := by
  set E := mkEnv raw vp with hE
  intro y h1 h2
  refine ⟨_, ledgerRows_get?_op E y h1 h2, ?_, ?_, ?_⟩
  · rw [opStep_income_tax, opStep_revenue_exc, opStep_om_cost, opStep_surtax]
  · unfold taxRateOf income_tax_rate
    split_ifs <;> norm_num
  · rw [opStep_income_tax]
    exact le_max_left 0 _

/-- C3 witness: the income-tax shape instantiated at operating year 5 of the
100 MW demonstration scenario (half-rate band). -/
theorem c3_income_tax_witness :
    validate qionghai_raw = .ok qionghai_vp ∧
    (∃ r, (ledgerRows (mkEnv qionghai_raw qionghai_vp)).get? 5 = some r ∧
      r.income_tax
        = max 0 ((r.revenue_exc - r.om_cost - r.surtax
                  - depreciationOf (mkEnv qionghai_raw qionghai_vp) 5) * taxRateOf 5) ∧
      taxRateOf 5 = (if 5 ≤ 3 then 0 else if 5 ≤ 6 then 125/1000 else 25/100) ∧
      0 ≤ r.income_tax) :=
  ⟨by with_unfolding_all rfl,
   c3_income_tax qionghai_raw qionghai_vp (by with_unfolding_all rfl) 5
     (by decide) (by decide)⟩

/-- C4: for every parameter set accepted by validation, the per-year
depreciation used in the taxable-profit computation is the single value
`(static investment + construction interest - deductible tax) * 0.95 / 20`
for operating years 1..20 and exactly `0` for years 21..25, so the total
over the 20-year horizon is the depreciable base times `(1 - 0.05)`; the
income tax of the ledger is computed from exactly this depreciation. -/
theorem c4_depreciation (raw : RawParams) (vp : VParams)
    (h : validate raw = .ok vp) :
    (∀ y, 1 ≤ y → y ≤ 20 → depreciationOf (mkEnv raw vp) y
        = (vp.static_invest + (mkEnv raw vp).const_interest
           - (mkEnv raw vp).deductible_tax) * (95/100) / 20) ∧
    (∀ y, 21 ≤ y → y ≤ 25 → depreciationOf (mkEnv raw vp) y = 0) ∧
    (∑ y in Finset.Icc 1 20, depreciationOf (mkEnv raw vp) y
        = (vp.static_invest + (mkEnv raw vp).const_interest
           - (mkEnv raw vp).deductible_tax) * (1 - 5/100)) ∧
    (∀ y, 1 ≤ y → y ≤ operation_period →
      ∃ r, (ledgerRows (mkEnv raw vp)).get? y = some r ∧
        r.income_tax
          = max 0 ((r.revenue_exc - r.om_cost - r.surtax
                    - depreciationOf (mkEnv raw vp) y) * taxRateOf y)) := by
  set E := mkEnv raw vp with hE
  have hconst : ∀ y, 1 ≤ y → y ≤ 20 → depreciationOf E y
      = (vp.static_invest + E.const_interest - E.deductible_tax) * (95/100) / 20 := by
    intro y h1 h2
    unfold depreciationOf depreciation_years depreciation_base_ratio
    rw [if_pos h2]
    norm_num
    rfl
  refine ⟨hconst, ?_, ?_, ?_⟩
  · intro y h1 h2
    unfold depreciationOf depreciation_years
    rw [if_neg (by omega)]
  · rw [Finset.sum_congr rfl
        (fun y hy => hconst y (Finset.mem_Icc.mp hy).1 (Finset.mem_Icc.mp hy).2)]
    rw [Finset.sum_const, Nat.card_Icc]
    norm_num
    ring
  · intro y h1 h2
    refine ⟨_, ledgerRows_get?_op E y h1 h2, ?_⟩
    rw [opStep_income_tax, opStep_revenue_exc, opStep_om_cost, opStep_surtax]

/-- C4 witness: the depreciation schedule instantiated on the 100 MW
demonstration scenario with concrete values. -/
theorem c4_depreciation_witness :
    validate qionghai_raw = .ok qionghai_vp ∧
    depreciationOf (mkEnv qionghai_raw qionghai_vp) 1
      = (qionghai_vp.static_invest + (mkEnv qionghai_raw qionghai_vp).const_interest
         - (mkEnv qionghai_raw qionghai_vp).deductible_tax) * (95/100) / 20 ∧
    depreciationOf (mkEnv qionghai_raw qionghai_vp) 21 = 0 ∧
    (∑ y in Finset.Icc 1 20, depreciationOf (mkEnv qionghai_raw qionghai_vp) y
      = (qionghai_vp.static_invest + (mkEnv qionghai_raw qionghai_vp).const_interest
         - (mkEnv qionghai_raw qionghai_vp).deductible_tax) * (1 - 5/100)) := by
  have h : validate qionghai_raw = .ok qionghai_vp := by with_unfolding_all rfl
  obtain ⟨h1, h2, h3, _⟩ := c4_depreciation qionghai_raw qionghai_vp h
  exact ⟨h, h1 1 (by omega) (by omega), h2 21 (by omega) (by omega), h3⟩

/-- C5: over the post-tax cash-flow sequence, `get_metrics` computes the
payback period by locating the first (0-based, as in the source) position
`i` whose cumulative sum is nonnegative and interpolating
`i - 1 + |cumsum (i-1)| / cf i`; when the cumulative sum never turns
nonnegative it reports the sentinel `99.9` and `get_metrics` still returns a
result (no error is raised) whenever the IRR oracle returns. -/
theorem c5_payback :
    (∀ (cf : List ℚ) (i : ℕ) (c : ℚ), 0 < i →
      (cumsumList cf).get? i = some c → 0 ≤ c →
      (∀ j cj, j < i → (cumsumList cf).get? j = some cj → cj < 0) →
      paybackOf cf
        = (i : ℚ) - 1 + |(cumsumList cf).getD (i - 1) 0| / cf.getD i 0) ∧
    (∀ cf : List ℚ, (∀ c ∈ cumsumList cf, c < 0) → paybackOf cf = 999/10) ∧
    (∀ (irrF : List ℚ → Except PyErr ℚ) (out : LedgerOut) (a b : ℚ),
      irrF (cfPre out) = .ok a → irrF (cfAfter out) = .ok b →
      getMetrics irrF out
        = .ok { total_invest := pyRound2 out.total_invest
                const_interest := pyRound2 out.const_interest
                irr_pre := pyRound2 (a * 100)
                irr_after := pyRound2 (b * 100)
                payback_years := pyRound2 (paybackOf (cfAfter out)) }) := by
  refine ⟨?_, ?_, ?_⟩
  · intro cf i c hi hget hc hmin
    have hsome : (cumsumList cf).get? i = some c := hget
    have hlt : i < (cumsumList cf).length := List.get?_eq_some.mp hsome |>.choose
    have hgetc : (cumsumList cf).get ⟨i, hlt⟩ = c := by
      have := List.get?_eq_some.mp hsome
      exact this.choose_spec
    have hfind : firstIdxWhere (fun c => decide (0 ≤ c)) (cumsumList cf) = some i := by
      apply firstIdxWhere_eq_some (cumsumList cf) i c hget
      · simpa using hc
      · intro j cj hj hgj
        simpa using not_le.mpr (hmin j cj hj hgj)
    unfold paybackOf
    simp only [hfind, if_pos hi]
  · intro cf hneg
    have hfind : firstIdxWhere (fun c => decide (0 ≤ c)) (cumsumList cf) = none := by
      apply firstIdxWhere_eq_none
      intro c hcmem
      simpa using not_le.mpr (hneg c hcmem)
    unfold paybackOf
    simp only [hfind]
  · intro irrF out a b ha hb
    unfold getMetrics
    rw [ha, hb]
    rfl

/-- C5 witness: the interpolation applied to the flows `[-2, 1, 3]`
(first nonnegative cumulative sum at position 2, payback `4/3`), the
sentinel on `[-1, -1]`, and a metrics run on a ledger output. -/
theorem c5_payback_witness :
    paybackOf [-2, 1, 3]
      = (2 : ℚ) - 1 + |(cumsumList [-2, 1, 3]).getD 1 0| / ([-2, 1, 3] : List ℚ).getD 2 0 ∧
    paybackOf [-1, -1] = 999/10 := by
  constructor
  · exact c5_payback.1 [-2, 1, 3] 2 2 (by decide) (by with_unfolding_all rfl)
      (by norm_num)
      (by
        intro j cj hj hgj
        interval_cases j <;>
          simp only [cumsumList, cumsumFrom, List.get?] at hgj <;>
          · injection hgj with h
            rw [← h]
            norm_num)
  · exact c5_payback.2.1 [-1, -1]
      (by
        intro c hc
        simp only [cumsumList, cumsumFrom, List.mem_cons, List.not_mem_nil] at hc
        rcases hc with h | h | h
        · rw [h]; norm_num
        · rw [h]; norm_num
        · exact absurd h (by simp))

/-- Strict antitonicity of the NPV in the rate for a flow sequence whose
later entries are nonnegative with at least one positive entry (the shape of
every ledger this engine builds for a profitable project). -/
theorem npv_strict_anti_of_tail {cf : List ℚ} (hne : cf ≠ [])
    (h : ∀ c ∈ cf.tail, 0 ≤ c) (hx : ∃ c ∈ cf.tail, 0 < c) {r s : ℚ}
    (hr : -1 < r) (hrs : r < s) : npv s cf < npv r cf := by
  cases cf with
  | nil => exact absurd rfl hne
  | cons c0 cs =>
      simp only [List.tail_cons] at h hx
      exact npv_strict_anti h hx hr hrs

set_option maxRecDepth 8000 in
/-- C7 (amended): on the concrete scenario (capacity 100 MW, static
investment 40000, capital ratio 0.20, loan rate 0.04876, 1500 hours, tariff
0.40, deductible tax 4000) the engine produces construction financing cost
`40000 * (1 - 0.20) / 2 * 0.04876 = 780.16` and total investment `41080.16`;
the pre-tax NPV changes sign across the window (11.37%, 11.38%) and the
post-tax NPV across (9.90%, 9.91%), and both NPVs are strictly decreasing in
the rate, so the pre-tax IRR is ≈ 11.38% and the post-tax IRR ≈ 9.90%. -/
theorem c7_concrete_scenario :
    (engineRun qionghai_raw).toOption.map LedgerOut.const_interest
      = some (40000 * (1 - 20/100) / 2 * (4876/100000)) ∧
    (engineRun qionghai_raw).toOption.map LedgerOut.const_interest = some (19504/25) ∧
    (engineRun qionghai_raw).toOption.map LedgerOut.total_invest
      = some (40000 + 19504/25 + 100 * 3) ∧
    signChangeWithin (preFlows qionghai_raw) (1137/10000) (1138/10000) ∧
    signChangeWithin (postFlows qionghai_raw) (990/10000) (991/10000) ∧
    (∀ r s : ℚ, -1 < r → r < s →
      npv s (preFlows qionghai_raw) < npv r (preFlows qionghai_raw)) ∧
    (∀ r s : ℚ, -1 < r → r < s →
      npv s (postFlows qionghai_raw) < npv r (postFlows qionghai_raw)) := by
  refine ⟨by with_unfolding_all rfl, by with_unfolding_all rfl,
          by with_unfolding_all rfl,
          of_decide_eq_true (by with_unfolding_all rfl),
          of_decide_eq_true (by with_unfolding_all rfl), ?_, ?_⟩
  · intro r s hr hrs
    exact npv_strict_anti_of_tail (of_decide_eq_true (by with_unfolding_all rfl))
      (of_decide_eq_true (by with_unfolding_all rfl))
      (of_decide_eq_true (by with_unfolding_all rfl)) hr hrs
  · intro r s hr hrs
    exact npv_strict_anti_of_tail (of_decide_eq_true (by with_unfolding_all rfl))
      (of_decide_eq_true (by with_unfolding_all rfl))
      (of_decide_eq_true (by with_unfolding_all rfl)) hr hrs

/-- C7 witness: the strict-antitonicity conjuncts of the amended scenario
theorem applied at the concrete rates 0 and 1/2. -/
theorem c7_concrete_scenario_witness :
    (-1 : ℚ) < 0 ∧ (0 : ℚ) < 1/2 ∧
    npv (1/2) (preFlows qionghai_raw) < npv 0 (preFlows qionghai_raw) ∧
    npv (1/2) (postFlows qionghai_raw) < npv 0 (postFlows qionghai_raw) :=
  ⟨by norm_num, by norm_num,
   c7_concrete_scenario.2.2.2.2.2.1 0 (1/2) (by norm_num) (by norm_num),
   c7_concrete_scenario.2.2.2.2.2.2 0 (1/2) (by norm_num) (by norm_num)⟩

set_option maxRecDepth 8000 in
/-- C7 counterexample: the returns quoted by the spec are the external benchmark
values from the demo docstring, not what the engine computes.  The pre-tax
NPV is strictly positive at both ends of the claimed 11.35% window
(11.345%..11.355%) and the post-tax NPV strictly negative at both ends of
the claimed 9.97% window (9.965%..9.975%); with the NPV strictly decreasing
in the rate, no internal rate of return lies in either claimed window. -/
theorem c7_counterexample :
    npvPosAcross (preFlows qionghai_raw) (11345/100000) (11355/100000) ∧
    npvNegAcross (postFlows qionghai_raw) (9965/100000) (9975/100000) :=
  ⟨of_decide_eq_true (by with_unfolding_all rfl),
   of_decide_eq_true (by with_unfolding_all rfl)⟩

/-- C6: for every solver obeying the brentq bracketing contract, every IRR
oracle, target, parameter set and bracket, `goal_seek_investment` returns
`none` (it never lets an exception escape) whenever the objective has no
sign change over the bracket or any engine/metrics invocation during a trial
raises, and it returns a numeric investment only when the bracketed
root-finder itself succeeds. -/
theorem c6_goal_seek
    (solve : (ℚ → Except PyErr ℚ) → ℚ → ℚ → Except PyErr ℚ)
    (irrF : List ℚ → Except PyErr ℚ) (target : ℚ) (params : RawParams)
    (mi ma : Option ℚ) (hs : SolverSpec solve) :
    (∀ fa fb,
      goalSeekObjective irrF params target (orDefault mi min_invest_const) = .ok fa →
      goalSeekObjective irrF params target (orDefault ma max_invest_const) = .ok fb →
      0 < fa * fb →
      goal_seek_investment solve irrF target params mi ma = none) ∧
    (∀ e,
      goalSeekObjective irrF params target (orDefault mi min_invest_const) = .error e →
      goal_seek_investment solve irrF target params mi ma = none) ∧
    (∀ fa e,
      goalSeekObjective irrF params target (orDefault mi min_invest_const) = .ok fa →
      goalSeekObjective irrF params target (orDefault ma max_invest_const) = .error e →
      goal_seek_investment solve irrF target params mi ma = none) ∧
    (∀ e, solve (goalSeekObjective irrF params target)
        (orDefault mi min_invest_const) (orDefault ma max_invest_const) = .error e →
      goal_seek_investment solve irrF target params mi ma = none) ∧
    (∀ v, goal_seek_investment solve irrF target params mi ma = some v →
      solve (goalSeekObjective irrF params target)
        (orDefault mi min_invest_const) (orDefault ma max_invest_const) = .ok v) := by
  have hmain : ∀ e, solve (goalSeekObjective irrF params target)
      (orDefault mi min_invest_const) (orDefault ma max_invest_const) = .error e →
      goal_seek_investment solve irrF target params mi ma = none := by
    intro e he
    simp only [goal_seek_investment]
    rw [he]
  refine ⟨?_, ?_, ?_, hmain, ?_⟩
  · intro fa fb ha hb hsign
    exact hmain _ (hs.same_sign _ _ _ fa fb ha hb hsign)
  · intro e ha
    exact hmain _ (hs.raise_left _ _ _ e ha)
  · intro fa e ha hb
    exact hmain _ (hs.raise_right _ _ _ fa e ha hb)
  · intro v hv
    simp only [goal_seek_investment] at hv
    rcases hres : solve (goalSeekObjective irrF params target)
        (orDefault mi min_invest_const) (orDefault ma max_invest_const) with w | w
    · rw [hres] at hv
      exact absurd hv (by simp)
    · rw [hres] at hv
      simp only [Option.some.injEq] at hv
      rw [hv]

/-- The reference solver `solveW` satisfies the brentq bracketing contract. -/
theorem solveW_spec : SolverSpec solveW := by
  constructor
  · intro f a b fa fb ha hb hsign
    unfold solveW
    rw [ha, hb]
    simp [hsign]
  · intro f a b e ha
    unfold solveW
    rw [ha]
  · intro f a b fa e ha hb
    unfold solveW
    rw [ha, hb]

/-- C6 witness: with an IRR oracle that raises, every trial of the objective
raises, and the goal seek on the demonstration scenario reports `none`. -/
theorem c6_goal_seek_witness :
    SolverSpec solveW ∧
    goalSeekObjective irrFail qionghai_raw 8 (orDefault none min_invest_const)
      = .error .otherError ∧
    goal_seek_investment solveW irrFail 8 qionghai_raw none none = none :=
  ⟨solveW_spec, by with_unfolding_all rfl,
   (c6_goal_seek solveW irrFail 8 qionghai_raw none none solveW_spec).2.1 .otherError
     (by with_unfolding_all rfl)⟩

/- ### Sensitivity-sweep lemmas -/

theorem linspace_length (a b : ℚ) (num : ℕ) : (linspace a b num).length = num := by
  unfold linspace
  split_ifs with h1 h2
  · simp [h1]
  · simp [h2]
  · rw [List.length_map, List.length_range]

theorem sensitivity_eq_of_resolve (irrF : List ℚ → Except PyErr ℚ)
    (base : RawParams) (factor : String) (v : ℚ) (steps : ℕ) (bv : ℚ)
    (hres : resolveBase base factor = .ok (some bv)) :
    sensitivity_analysis irrF base factor v steps
      = .ok { rows := (linspace (-v) v steps).map (sensRow irrF base factor bv),
              coeff := sensCoeffCol
                ((linspace (-v) v steps).map (sensRow irrF base factor bv)) } := by
  simp only [sensitivity_analysis, hres]
  rfl

theorem sensOffset_eq_none_of_error (irrF : List ℚ → Except PyErr ℚ)
    (base : RawParams) (factor : String) (nv : ℚ) (e : PyErr)
    (he : pipelineIrr irrF { base with entries := pinsert base.entries factor nv }
            = .error e) :
    sensOffset irrF base factor nv = none := by
  unfold sensOffset basePipeline
  rw [he]

/-- C8: whenever the base value of the factor resolves, the sweep returns a table
with exactly one row per generated offset, each row carrying the perturbed
value and the pipeline outcome for that offset; an offset whose
engine+metrics invocation raises is recorded with an undefined (`none`) IRR
instead of aborting the sweep. -/
theorem c8_sweep_resilience (irrF : List ℚ → Except PyErr ℚ) (base : RawParams)
    (factor : String) (v : ℚ) (steps : ℕ) (bv : ℚ)
    (hres : resolveBase base factor = .ok (some bv)) :
    ∃ tbl, sensitivity_analysis irrF base factor v steps = .ok tbl ∧
      tbl.rows.length = steps ∧
      (∀ i var, (linspace (-v) v steps).get? i = some var →
        tbl.rows.get? i = some (sensRow irrF base factor bv var)) ∧
      (∀ i var e, (linspace (-v) v steps).get? i = some var →
        pipelineIrr irrF
            { base with entries := pinsert base.entries factor (bv * (1 + var)) }
          = .error e →
        ∃ r, tbl.rows.get? i = some r ∧ r.irr_pre = none) := by
  refine ⟨_, sensitivity_eq_of_resolve irrF base factor v steps bv hres, ?_, ?_, ?_⟩
  · simp [linspace_length]
  · intro i var hv
    rw [List.get?_map, hv]
    rfl
  · intro i var e hv he
    refine ⟨sensRow irrF base factor bv var, by rw [List.get?_map, hv]; rfl, ?_⟩
    exact sensOffset_eq_none_of_error irrF base factor (bv * (1 + var)) e he

/-- C9: an unknown factor (not a key of the parameter dictionary and not one
of the supported `price`/`price_tax_inc`/`hours`/`gen_hours` alias names)
makes `sensitivity_analysis` raise a `ValueError` before producing any sweep
results. -/
theorem c9_unknown_factor (irrF : List ℚ → Except PyErr ℚ) (base : RawParams)
    (factor : String) (v : ℚ) (steps : ℕ)
    (h1 : pget base.entries factor = none)
    (h2 : factor ≠ "price") (h3 : factor ≠ "price_tax_inc")
    (h4 : factor ≠ "hours") (h5 : factor ≠ "gen_hours") :
    sensitivity_analysis irrF base factor v steps = .error .valueError := by
  have hres : resolveBase base factor = .error .valueError := by
    unfold resolveBase
    rw [h1]
    simp [h2, h3, h4, h5]
  simp only [sensitivity_analysis, hres]
  rfl

/- ### Keys the engine never reads do not affect a run -/

theorem validate_pinsert (raw : RawParams) (k : String) (v : ℚ)
    (h1 : k ≠ "capacity_mw") (h2 : k ≠ "static_invest") (h3 : k ≠ "hours")
    (h4 : k ≠ "loan_rate") (h5 : k ≠ "capital_ratio") (h6 : k ≠ "price_tax_inc")
    (h7 : k ≠ "self_consumption_ratio") (h8 : k ≠ "retail_price")
    (h9 : k ≠ "feedin_price") :
    validate { entries := pinsert raw.entries k v, mode := raw.mode }
      = validate raw := by
  unfold validate
  simp only [pgetD,
    pget_pinsert_ne raw.entries v (Ne.symm h1),
    pget_pinsert_ne raw.entries v (Ne.symm h2),
    pget_pinsert_ne raw.entries v (Ne.symm h3),
    pget_pinsert_ne raw.entries v (Ne.symm h4),
    pget_pinsert_ne raw.entries v (Ne.symm h5),
    pget_pinsert_ne raw.entries v (Ne.symm h6),
    pget_pinsert_ne raw.entries v (Ne.symm h7),
    pget_pinsert_ne raw.entries v (Ne.symm h8),
    pget_pinsert_ne raw.entries v (Ne.symm h9)]

theorem mkEnv_pinsert (raw : RawParams) (vp : VParams) (k : String) (v : ℚ)
    (h : k ≠ "deductible_tax") :
    mkEnv { entries := pinsert raw.entries k v, mode := raw.mode } vp
      = mkEnv raw vp := by
  unfold mkEnv
  simp only [pgetD, pget_pinsert_ne raw.entries v (Ne.symm h)]

theorem engineRun_pinsert (raw : RawParams) (k : String) (v : ℚ)
    (h1 : k ≠ "capacity_mw") (h2 : k ≠ "static_invest") (h3 : k ≠ "hours")
    (h4 : k ≠ "loan_rate") (h5 : k ≠ "capital_ratio") (h6 : k ≠ "price_tax_inc")
    (h7 : k ≠ "self_consumption_ratio") (h8 : k ≠ "retail_price")
    (h9 : k ≠ "feedin_price") (h10 : k ≠ "deductible_tax") :
    engineRun { entries := pinsert raw.entries k v, mode := raw.mode }
      = engineRun raw := by
  unfold engineRun
  rw [validate_pinsert raw k v h1 h2 h3 h4 h5 h6 h7 h8 h9]
  cases hv : validate raw with
  | error e => rfl
  | ok vp => simp only [mkEnv_pinsert raw vp k v h10]

theorem basePipeline_pinsert (irrF : List ℚ → Except PyErr ℚ) (raw : RawParams)
    (k : String) (v : ℚ)
    (h1 : k ≠ "capacity_mw") (h2 : k ≠ "static_invest") (h3 : k ≠ "hours")
    (h4 : k ≠ "loan_rate") (h5 : k ≠ "capital_ratio") (h6 : k ≠ "price_tax_inc")
    (h7 : k ≠ "self_consumption_ratio") (h8 : k ≠ "retail_price")
    (h9 : k ≠ "feedin_price") (h10 : k ≠ "deductible_tax") :
    basePipeline irrF { entries := pinsert raw.entries k v, mode := raw.mode }
      = basePipeline irrF raw := by
  unfold basePipeline pipelineIrr
  rw [engineRun_pinsert raw k v h1 h2 h3 h4 h5 h6 h7 h8 h9 h10]

/-- C10: on a full-grid parameter set whose tariff sits under
`price_tax_inc` and which has no `price` key, sweeping the documented alias
factor `price` stores the perturbed values under the key `price`, which the
engine never reads: the sweep succeeds and every row reports exactly the
pipeline outcome of the unperturbed base project; likewise for the alias
`gen_hours` against the engine key `hours`. -/
theorem c10_alias_noop (irrF : List ℚ → Except PyErr ℚ) (base : RawParams)
    (v : ℚ) (steps : ℕ) (p : ℚ)
    (hmode : base.mode = none ∨ base.mode = some "full_grid")
    (hp : pget base.entries "price_tax_inc" = some p)
    (hnp : pget base.entries "price" = none) :
    (∃ tbl, sensitivity_analysis irrF base "price" v steps = .ok tbl ∧
      tbl.rows.length = steps ∧
      ∀ r ∈ tbl.rows, r.irr_pre = basePipeline irrF base) ∧
    (pget base.entries "gen_hours" = none →
      ∃ tbl, sensitivity_analysis irrF base "gen_hours" v steps = .ok tbl ∧
        tbl.rows.length = steps ∧
        ∀ r ∈ tbl.rows, r.irr_pre = basePipeline irrF base) := by
  constructor
  · have hres : resolveBase base "price" = .ok (some p) := by
      unfold resolveBase
      rw [hnp]
      simp [hp]
    refine ⟨_, sensitivity_eq_of_resolve irrF base "price" v steps p hres, ?_, ?_⟩
    · simp [linspace_length]
    · intro r hr
      obtain ⟨var, hvar, rfl⟩ := List.mem_map.mp hr
      show sensOffset irrF base "price" (p * (1 + var)) = basePipeline irrF base
      unfold sensOffset
      exact basePipeline_pinsert irrF base "price" (p * (1 + var))
        (by decide) (by decide) (by decide) (by decide) (by decide) (by decide)
        (by decide) (by decide) (by decide) (by decide)
  · intro hng
    have hres : resolveBase base "gen_hours" = .ok (some (pgetD base.entries "hours" 1000)) := by
      unfold resolveBase
      rw [hng]
      simp
    refine ⟨_, sensitivity_eq_of_resolve irrF base "gen_hours" v steps _ hres, ?_, ?_⟩
    · simp [linspace_length]
    · intro r hr
      obtain ⟨var, hvar, rfl⟩ := List.mem_map.mp hr
      show sensOffset irrF base "gen_hours" (pgetD base.entries "hours" 1000 * (1 + var))
        = basePipeline irrF base
      unfold sensOffset
      exact basePipeline_pinsert irrF base "gen_hours" _
        (by decide) (by decide) (by decide) (by decide) (by decide) (by decide)
        (by decide) (by decide) (by decide) (by decide)

/-- C8 witness: sweeping the capital ratio of a 95%-capital-ratio project
over ±10% in 3 steps; the +10% offset pushes the ratio above 1, its trial
raises a validation error, and the sweep still returns one row per offset
with that offset recorded as `none`. -/
theorem c8_sweep_resilience_witness :
    resolveBase cr95_raw "capital_ratio" = .ok (some (19/20)) ∧
    pipelineIrr irrConst
        { cr95_raw with
          entries := pinsert cr95_raw.entries "capital_ratio" (19/20 * (1 + 1/10)) }
      = .error .validationError ∧
    (∃ tbl, sensitivity_analysis irrConst cr95_raw "capital_ratio" (1/10) 3 = .ok tbl ∧
      tbl.rows.length = 3 ∧
      (∀ i var, (linspace (-(1/10)) (1/10) 3).get? i = some var →
        tbl.rows.get? i = some (sensRow irrConst cr95_raw "capital_ratio" (19/20) var)) ∧
      (∀ i var e, (linspace (-(1/10)) (1/10) 3).get? i = some var →
        pipelineIrr irrConst
            { cr95_raw with
              entries := pinsert cr95_raw.entries "capital_ratio" (19/20 * (1 + var)) }
          = .error e →
        ∃ r, tbl.rows.get? i = some r ∧ r.irr_pre = none)) :=
  ⟨by with_unfolding_all rfl, by with_unfolding_all rfl,
   c8_sweep_resilience irrConst cr95_raw "capital_ratio" (1/10) 3 (19/20)
     (by with_unfolding_all rfl)⟩

/-- C9 witness: `land_cost` is not a key of the demonstration parameters and
not an alias, so the sweep raises a `ValueError`. -/
theorem c9_unknown_factor_witness :
    pget qionghai_raw.entries "land_cost" = none ∧
    sensitivity_analysis irrConst qionghai_raw "land_cost" (1/10) 5
      = .error .valueError :=
  ⟨by with_unfolding_all rfl,
   c9_unknown_factor irrConst qionghai_raw "land_cost" (1/10) 5
     (by with_unfolding_all rfl) (by decide) (by decide) (by decide) (by decide)⟩

/-- C10 witness: the alias no-op instantiated on the demonstration scenario
(tariff under `price_tax_inc`, no `price` or `gen_hours` key). -/
theorem c10_alias_noop_witness :
    pget qionghai_raw.entries "price_tax_inc" = some (4/10) ∧
    pget qionghai_raw.entries "price" = none ∧
    pget qionghai_raw.entries "gen_hours" = none ∧
    ((∃ tbl, sensitivity_analysis irrConst qionghai_raw "price" (1/10) 1 = .ok tbl ∧
        tbl.rows.length = 1 ∧
        ∀ r ∈ tbl.rows, r.irr_pre = basePipeline irrConst qionghai_raw) ∧
     (pget qionghai_raw.entries "gen_hours" = none →
      ∃ tbl, sensitivity_analysis irrConst qionghai_raw "gen_hours" (1/10) 1 = .ok tbl ∧
        tbl.rows.length = 1 ∧
        ∀ r ∈ tbl.rows, r.irr_pre = basePipeline irrConst qionghai_raw)) :=
  ⟨by with_unfolding_all rfl, by with_unfolding_all rfl, by with_unfolding_all rfl,
   c10_alias_noop irrConst qionghai_raw (1/10) 1 (4/10) (Or.inl rfl)
     (by with_unfolding_all rfl) (by with_unfolding_all rfl)⟩
